import Mathlib

/-!
# staticy: directory-listing suppression and request logging

A shallow embedding of `main.go`: the `FileSystem.Open` adapter over an
`http.FileSystem`, `unindexedDir`, `serverWithLogHandle` and the choice of
file system made by `main`.

Effectful Go code is modelled by explicit state passing.  A `World` holds the
state of the underlying store together with the trace of the calls made on
that store; every interface call (`Open`, `Stat`) threads the world through.
-/

namespace Staticy

/-! ## Go values -/

/-- Go `error` values that can reach the adapter.  `ErrPermission` and
`ErrNotExist` are the sentinels of package `os`; every other error value
(for instance a `*PathError`, also one wrapping a sentinel) is `other`. -/
inductive GoError where
  | ErrPermission
  | ErrNotExist
  | other (msg : String)
  deriving DecidableEq, Repr

deriving instance DecidableEq for Except

/-- The part of `os.FileInfo` the program reads: the answer of `IsDir()`. -/
structure FileInfo where
  IsDir : Bool
  deriving DecidableEq, Repr

/-- Go `strings.HasSuffix`. -/
def HasSuffix (s suffix : String) : Bool :=
  suffix.data.isSuffixOf s.data

/-- Go `strings.TrimSuffix`: `s` without the trailing `suffix`, once, when
`s` ends with it; `s` unchanged otherwise. -/
def TrimSuffix (s suffix : String) : String :=
  if HasSuffix s suffix then
    ⟨s.data.take (s.data.length - suffix.data.length)⟩
  else s

/-! ## The underlying store: `http.FileSystem` and `http.File` -/

/-- An `http.FileSystem` whose state is `σ` and whose non-nil file handles
(`http.File`) are the values of `F`.  `Open` is the interface method;
`Stat` is the method of the handles, returning the pair
`(os.FileInfo, error)` in which either component may be nil. -/
structure HttpFileSystem (σ F : Type) where
  Open : String → σ → Except GoError F × σ
  Stat : F → σ → (Option FileInfo × Option GoError) × σ

/-- One call made on the underlying store. -/
inductive Event (F : Type) where
  | opened (name : String) (f : F)
  | openFailed (name : String) (err : GoError)
  | stat (f : F)
  | closed (f : F)
  deriving DecidableEq, Repr

/-- State of the store and the calls made on it so far, oldest first. -/
structure World (σ F : Type) where
  store : σ
  trace : List (Event F)
  deriving DecidableEq

/-- The call `fs.Open(name)`, recorded in the trace. -/
def fsOpen {σ F : Type} (fs : HttpFileSystem σ F) (name : String) (w : World σ F) :
    Except GoError F × World σ F :=
  match fs.Open name w.store with
  | (Except.ok f, st) => (Except.ok f, ⟨st, w.trace ++ [Event.opened name f]⟩)
  | (Except.error err, st) => (Except.error err, ⟨st, w.trace ++ [Event.openFailed name err]⟩)

/-- The call `f.Stat()`, recorded in the trace. -/
def fileStat {σ F : Type} (fs : HttpFileSystem σ F) (f : F) (w : World σ F) :
    (Option FileInfo × Option GoError) × World σ F :=
  match fs.Stat f w.store with
  | (r, st) => (r, ⟨st, w.trace ++ [Event.stat f]⟩)

/-! ## The adapter -/

/-- What a call of an `Open` method ends in: the pair `(f, nil)`, the pair
`(nil, err)`, or a run-time panic. -/
inductive OpenResult (F : Type) where
  | ok (f : F)
  | error (err : GoError)
  | panicked
  deriving DecidableEq, Repr

/-- The Go type `FileSystem`: a wrapper around an `http.FileSystem`. -/
structure FileSystem (σ F : Type) where
  fs : HttpFileSystem σ F

/-- The candidate index path computed by `FileSystem.Open`:
`strings.TrimSuffix(name, "/") + "/index.html"`. -/
def indexPath (name : String) : String :=
  TrimSuffix name "/" ++ "/index.html"

/-- The method `FileSystem.Open`.  The error of `f.Stat()` is not inspected;
`s.IsDir()` on a nil `os.FileInfo` is a nil dereference. -/
def FileSystem.Open {σ F : Type} (ufs : FileSystem σ F) (name : String) (w : World σ F) :
    OpenResult F × World σ F :=
  match fsOpen ufs.fs name w with
  | (Except.error err, w1) => (OpenResult.error err, w1)
  | (Except.ok f, w1) =>
    match fileStat ufs.fs f w1 with
    | ((none, _), w2) => (OpenResult.panicked, w2)
    | ((some s, _), w2) =>
      if s.IsDir then
        let index := indexPath name
        match fsOpen ufs.fs index w2 with
        | (Except.error _, w3) => (OpenResult.error GoError.ErrPermission, w3)
        | (Except.ok _, w3) => (OpenResult.ok f, w3)
      else (OpenResult.ok f, w2)

/-- The handles that a trace leaves open: those returned by a successful
`Open` on the store and not passed to `Close` since.  `FileSystem.Open`
makes no `Close` call, so it adds no `closed` event. -/
def openHandles {F : Type} [DecidableEq F] (trace : List (Event F)) : List F :=
  trace.foldl
    (fun acc ev =>
      match ev with
      | Event.opened _ f => acc ++ [f]
      | Event.closed f => acc.erase f
      | _ => acc)
    []

/-! ## `unindexedDir`, `main` -/

/-- A value of interface type `http.FileSystem` as `main` builds it: the
raw store `http.Dir(root)`, or the adapter `FileSystem` around it. -/
inductive ServedFS (σ F : Type) where
  | raw (fs : HttpFileSystem σ F)
  | unindexed (ufs : FileSystem σ F)

/-- The `Open` method of a `ServedFS`, by dynamic dispatch. -/
def ServedFS.Open {σ F : Type} (root : ServedFS σ F) (name : String) (w : World σ F) :
    OpenResult F × World σ F :=
  match root with
  | ServedFS.unindexed ufs => ufs.Open name w
  | ServedFS.raw fs =>
    match fsOpen fs name w with
    | (Except.ok f, w1) => (OpenResult.ok f, w1)
    | (Except.error err, w1) => (OpenResult.error err, w1)

/-- The function `unindexedDir`; `Dir` stands for `http.Dir`. -/
def unindexedDir {σ F : Type} (Dir : String → HttpFileSystem σ F) (filepath : String) :
    ServedFS σ F :=
  ServedFS.unindexed { fs := Dir filepath }

/-- The handler `http.FileServer` returns: it keeps the file system it was
given as its root, and opens every path through it. -/
structure fileHandler (σ F : Type) where
  root : ServedFS σ F

/-- Go `http.FileServer`. -/
def FileServer {σ F : Type} (root : ServedFS σ F) : fileHandler σ F :=
  { root := root }

/-- The value of `fileServer` in `main` when it is passed to
`serverWithLogHandle`.  `Abs` stands for `filepath.Abs` (its error is
dropped by `main`), `Dir` for `http.Dir`; `docroot` and `indexing` are the
parsed flags. -/
def mainFileServer {σ F : Type} (Abs : String → String) (Dir : String → HttpFileSystem σ F)
    (docroot : String) (indexing : Bool) : fileHandler σ F :=
  let docroot := Abs docroot
  let fileServer := FileServer (ServedFS.raw (Dir docroot))
  if indexing then FileServer (unindexedDir Dir docroot) else fileServer

/-! ## `serverWithLogHandle` -/

/-- The fields of `*http.Request` that the program reads.  `URL` is the
text that the verb `%s` prints for `r.URL`. -/
structure Request where
  RemoteAddr : String
  Host : String
  Proto : String
  Method : String
  URL : String
  deriving DecidableEq, Repr

/-- An effect of a handler built by `serverWithLogHandle`: a call of
`log.Printf` with the formatted text, or a call `srv.ServeHTTP(w, r)`. -/
inductive Effect (H W : Type) where
  | logPrintf (text : String)
  | ServeHTTP (srv : H) (w : W) (r : Request)
  deriving DecidableEq, Repr

/-- The text `fmt.Sprintf("%s %s %s %s %s\n", a, b, c, d, e)`. -/
def sprintf5 (a b c d e : String) : String :=
  a ++ " " ++ b ++ " " ++ c ++ " " ++ d ++ " " ++ e ++ "\n"

/-- The function `serverWithLogHandle`: the closure it returns, as the
effects one invocation performs, in order. -/
def serverWithLogHandle {H W : Type} (srv : H) : W → Request → List (Effect H W) :=
  fun w r =>
    [ Effect.logPrintf (sprintf5 r.RemoteAddr r.Host r.Proto r.Method r.URL),
      Effect.ServeHTTP srv w r ]

/-! ## A concrete store

The scenario of the specification: a document root holding
`/a/index.html` and `/b/notes.txt`, extended by a directory `/c` whose
entry `index.html` is itself a directory and by an entry `/gone` that can
be opened but no longer inspected. -/

/-- Kinds of entries of the scenario store. -/
inductive Entry where
  | file
  | dir
  | vanished
  deriving DecidableEq, Repr

/-- A file handle of the scenario store: a serial number and the name it
was opened under. -/
structure Handle where
  id : Nat
  path : String
  deriving DecidableEq, Repr

/-- The entries of the scenario store.  As `http.Dir` does, it resolves a
directory with or without a trailing separator. -/
def scenarioTree (name : String) : Option Entry :=
  if name = "/" ∨ name = "/a" ∨ name = "/a/" ∨ name = "/b" ∨ name = "/b/"
      ∨ name = "/c" ∨ name = "/c/" ∨ name = "/c/index.html" then some Entry.dir
  else if name = "/a/index.html" ∨ name = "/b/notes.txt" then some Entry.file
  else if name = "/gone" then some Entry.vanished
  else none

/-- The scenario store.  Its state is the serial number of the next
handle; `Stat` on a vanished entry returns `(nil, err)`, as `os.File` does. -/
def scenarioFS : HttpFileSystem Nat Handle where
  Open := fun name next =>
    match scenarioTree name with
    | some _ => (Except.ok { id := next, path := name }, next + 1)
    | none => (Except.error GoError.ErrNotExist, next)
  Stat := fun f st =>
    match scenarioTree f.path with
    | some Entry.file => ((some { IsDir := false }, none), st)
    | some Entry.dir => ((some { IsDir := true }, none), st)
    | _ => ((none, some (GoError.other "stat: no such file or directory")), st)

/-- The world before any call on the scenario store. -/
def world0 : World Nat Handle :=
  { store := 0, trace := [] }

/-! ## `FileSystem.Open` on an arbitrary store -/

/-- C4: when the store fails to open `name` with error `err`, the adapter
returns no handle and the same error `err`, and has made that one call
only. -/
theorem open_propagates_store_error {σ F : Type} (ufs : FileSystem σ F) (name : String)
    (w : World σ F) (err : GoError) (st : σ)
    (hopen : ufs.fs.Open name w.store = (Except.error err, st)) :
    ufs.Open name w
      = (OpenResult.error err,
          { store := st, trace := w.trace ++ [Event.openFailed name err] }) := by
  simp [FileSystem.Open, fsOpen, hopen]

/-- Witness of C4: `/missing` on the scenario store. -/
theorem open_propagates_store_error_witness :
    scenarioFS.Open "/missing" world0.store = (Except.error GoError.ErrNotExist, 0)
    ∧ FileSystem.Open { fs := scenarioFS } "/missing" world0
      = (OpenResult.error GoError.ErrNotExist,
          { store := 0,
            trace := world0.trace ++ [Event.openFailed "/missing" GoError.ErrNotExist] }) :=
  ⟨by decide,
   open_propagates_store_error { fs := scenarioFS } "/missing" world0 GoError.ErrNotExist 0
     (by decide)⟩

/-- C1: when `name` opens as a directory and the store fails to open the
candidate `TrimSuffix name "/" ++ "/index.html"`, the adapter returns no
handle and the error `os.ErrPermission`, whatever error `err` the store
gave for the candidate. -/
theorem open_dir_without_index_is_permission {σ F : Type} (ufs : FileSystem σ F)
    (name : String) (w : World σ F) (f : F) (s : FileInfo) (serr : Option GoError)
    (err : GoError) (st1 st2 st3 : σ)
    (hopen : ufs.fs.Open name w.store = (Except.ok f, st1))
    (hstat : ufs.fs.Stat f st1 = ((some s, serr), st2))
    (hdir : s.IsDir = true)
    (hindex : ufs.fs.Open (TrimSuffix name "/" ++ "/index.html") st2 = (Except.error err, st3)) :
    (ufs.Open name w).1 = OpenResult.error GoError.ErrPermission := by
  simp [FileSystem.Open, fsOpen, fileStat, indexPath, hopen, hstat, hdir, hindex]

/-- Witness of C1: `/b/` on the scenario store, whose candidate
`/b/index.html` fails with `os.ErrNotExist`. -/
theorem open_dir_without_index_is_permission_witness :
    scenarioFS.Open "/b/" world0.store = (Except.ok { id := 0, path := "/b/" }, 1)
    ∧ scenarioFS.Stat { id := 0, path := "/b/" } 1 = ((some { IsDir := true }, none), 1)
    ∧ scenarioFS.Open (TrimSuffix "/b/" "/" ++ "/index.html") 1
        = (Except.error GoError.ErrNotExist, 1)
    ∧ (FileSystem.Open { fs := scenarioFS } "/b/" world0).1
        = OpenResult.error GoError.ErrPermission :=
  ⟨by decide, by decide, by decide,
   open_dir_without_index_is_permission { fs := scenarioFS } "/b/" world0
     { id := 0, path := "/b/" } { IsDir := true } none GoError.ErrNotExist 1 1 1
     (by decide) (by decide) rfl (by decide)⟩

/-- C2: when `name` opens as a directory with handle `f` and the candidate
index path opens with handle `fi`, the adapter succeeds with `f`, the
handle of the first open; it does not return a different handle `fi`. -/
theorem open_dir_with_index_returns_dir_handle {σ F : Type} (ufs : FileSystem σ F)
    (name : String) (w : World σ F) (f fi : F) (s : FileInfo) (serr : Option GoError)
    (st1 st2 st3 : σ)
    (hopen : ufs.fs.Open name w.store = (Except.ok f, st1))
    (hstat : ufs.fs.Stat f st1 = ((some s, serr), st2))
    (hdir : s.IsDir = true)
    (hindex : ufs.fs.Open (TrimSuffix name "/" ++ "/index.html") st2 = (Except.ok fi, st3)) :
    (ufs.Open name w).1 = OpenResult.ok f
    ∧ (fi ≠ f → (ufs.Open name w).1 ≠ OpenResult.ok fi) := by
  have h : (ufs.Open name w).1 = OpenResult.ok f := by
    simp [FileSystem.Open, fsOpen, fileStat, indexPath, hopen, hstat, hdir, hindex]
  refine ⟨h, fun hne heq => hne ?_⟩
  rw [h] at heq
  exact (OpenResult.ok.inj heq).symm

/-- Witness of C2: `/a/` on the scenario store, which holds
`/a/index.html`. -/
theorem open_dir_with_index_returns_dir_handle_witness :
    scenarioFS.Open "/a/" world0.store = (Except.ok { id := 0, path := "/a/" }, 1)
    ∧ scenarioFS.Stat { id := 0, path := "/a/" } 1 = ((some { IsDir := true }, none), 1)
    ∧ scenarioFS.Open (TrimSuffix "/a/" "/" ++ "/index.html") 1
        = (Except.ok { id := 1, path := "/a/index.html" }, 2)
    ∧ (FileSystem.Open { fs := scenarioFS } "/a/" world0).1
        = OpenResult.ok { id := 0, path := "/a/" }
    ∧ (FileSystem.Open { fs := scenarioFS } "/a/" world0).1
        ≠ OpenResult.ok { id := 1, path := "/a/index.html" } :=
  have h := open_dir_with_index_returns_dir_handle { fs := scenarioFS } "/a/" world0
    { id := 0, path := "/a/" } { id := 1, path := "/a/index.html" } { IsDir := true } none
    1 1 2 (by decide) (by decide) rfl (by decide)
  ⟨by decide, by decide, by decide, h.1, h.2 (by decide)⟩

/-- C3: when `name` opens with handle `f` and its metadata says it is not
a directory, the adapter succeeds with exactly `f`, and the calls it has
made on the store are the open of `name` and the `Stat` of `f`: no other
path is opened. -/
theorem open_regular_file_returns_store_handle {σ F : Type} (ufs : FileSystem σ F)
    (name : String) (w : World σ F) (f : F) (s : FileInfo) (serr : Option GoError)
    (st1 st2 : σ)
    (hopen : ufs.fs.Open name w.store = (Except.ok f, st1))
    (hstat : ufs.fs.Stat f st1 = ((some s, serr), st2))
    (hfile : s.IsDir = false) :
    ufs.Open name w
      = (OpenResult.ok f,
          { store := st2, trace := w.trace ++ [Event.opened name f, Event.stat f] }) := by
  simp [FileSystem.Open, fsOpen, fileStat, hopen, hstat, hfile]

/-- Witness of C3: `/b/notes.txt` on the scenario store. -/
theorem open_regular_file_returns_store_handle_witness :
    scenarioFS.Open "/b/notes.txt" world0.store
        = (Except.ok { id := 0, path := "/b/notes.txt" }, 1)
    ∧ scenarioFS.Stat { id := 0, path := "/b/notes.txt" } 1
        = ((some { IsDir := false }, none), 1)
    ∧ FileSystem.Open { fs := scenarioFS } "/b/notes.txt" world0
        = (OpenResult.ok { id := 0, path := "/b/notes.txt" },
            { store := 1,
              trace := world0.trace ++
                [Event.opened "/b/notes.txt" { id := 0, path := "/b/notes.txt" },
                 Event.stat { id := 0, path := "/b/notes.txt" }] }) :=
  ⟨by decide, by decide,
   open_regular_file_returns_store_handle { fs := scenarioFS } "/b/notes.txt" world0
     { id := 0, path := "/b/notes.txt" } { IsDir := false } none 1 1
     (by decide) (by decide) rfl⟩

/-- For every store: when `Stat` of the opened handle returns a nil
`os.FileInfo`, the call `s.IsDir()` panics. -/
theorem open_panics_of_nil_info {σ F : Type} (ufs : FileSystem σ F) (name : String)
    (w : World σ F) (f : F) (serr : Option GoError) (st1 st2 : σ)
    (hopen : ufs.fs.Open name w.store = (Except.ok f, st1))
    (hstat : ufs.fs.Stat f st1 = ((none, serr), st2)) :
    (ufs.Open name w).1 = OpenResult.panicked := by
  simp [FileSystem.Open, fsOpen, fileStat, hopen, hstat]

/-- C6, the code at the failing input: `/gone` opens on the scenario store,
`Stat` of its handle fails with `(nil, err)`, and `FileSystem.Open` ends in
a panic instead of returning an error. -/
theorem open_panics_when_stat_fails :
    scenarioFS.Open "/gone" world0.store = (Except.ok { id := 0, path := "/gone" }, 1)
    ∧ scenarioFS.Stat { id := 0, path := "/gone" } 1
        = ((none, some (GoError.other "stat: no such file or directory")), 1)
    ∧ (FileSystem.Open { fs := scenarioFS } "/gone" world0).1 = OpenResult.panicked
    ∧ (FileSystem.Open { fs := scenarioFS } "/gone" world0).1
        ≠ OpenResult.error GoError.ErrNotExist := by
  decide

/-- C5, the code at the failing input: `/c` is a directory of the scenario
store whose entry `/c/index.html` is a directory.  `FileSystem.Open` succeeds
with the directory handle of `/c`, although the candidate index path holds no
regular file. -/
theorem open_dir_with_directory_index_succeeds :
    FileSystem.Open { fs := scenarioFS } "/c" world0
      = (OpenResult.ok { id := 0, path := "/c" },
          { store := 2,
            trace := [Event.opened "/c" { id := 0, path := "/c" },
                      Event.stat { id := 0, path := "/c" },
                      Event.opened "/c/index.html" { id := 1, path := "/c/index.html" }] })
    ∧ (scenarioFS.Stat { id := 0, path := "/c" } 1).1 = (some { IsDir := true }, none)
    ∧ TrimSuffix "/c" "/" ++ "/index.html" = "/c/index.html"
    ∧ (scenarioFS.Stat { id := 1, path := "/c/index.html" } 2).1
        = (some { IsDir := true }, none) := by
  decide

/-- For every store: the calls `FileSystem.Open` adds to the trace contain
no `Close`. -/
theorem open_trace_has_no_close {σ F : Type} (ufs : FileSystem σ F) (name : String)
    (w : World σ F) :
    ∃ evs : List (Event F), (ufs.Open name w).2.trace = w.trace ++ evs
      ∧ ∀ f, Event.closed f ∉ evs := by
  unfold FileSystem.Open fsOpen fileStat
  rcases h1 : ufs.fs.Open name w.store with ⟨r1, st1⟩
  cases r1 with
  | error err => exact ⟨[Event.openFailed name err], by simp [h1], by simp⟩
  | ok f =>
    rcases h2 : ufs.fs.Stat f st1 with ⟨⟨info, serr⟩, st2⟩
    cases info with
    | none => exact ⟨[Event.opened name f, Event.stat f], by simp [h1, h2], by simp⟩
    | some s =>
      cases hd : s.IsDir with
      | false => exact ⟨[Event.opened name f, Event.stat f], by simp [h1, h2, hd], by simp⟩
      | true =>
        rcases h3 : ufs.fs.Open (indexPath name) st2 with ⟨r3, st3⟩
        cases r3 with
        | error err =>
          exact ⟨[Event.opened name f, Event.stat f, Event.openFailed (indexPath name) err],
            by simp [h1, h2, hd, h3], by simp⟩
        | ok fi =>
          exact ⟨[Event.opened name f, Event.stat f, Event.opened (indexPath name) fi],
            by simp [h1, h2, hd, h3], by simp⟩

/-- C9, the code at the failing inputs.  For `/a` the adapter returns the
directory handle and leaves the handle of `/a/index.html` open as well; for
`/b` it fails with `os.ErrPermission` and leaves the directory handle
open. -/
theorem open_leaves_unreturned_handles_open :
    (FileSystem.Open { fs := scenarioFS } "/a" world0).1
        = OpenResult.ok { id := 0, path := "/a" }
    ∧ openHandles (FileSystem.Open { fs := scenarioFS } "/a" world0).2.trace
        = [{ id := 0, path := "/a" }, { id := 1, path := "/a/index.html" }]
    ∧ (FileSystem.Open { fs := scenarioFS } "/b" world0).1
        = OpenResult.error GoError.ErrPermission
    ∧ openHandles (FileSystem.Open { fs := scenarioFS } "/b" world0).2.trace
        = [{ id := 0, path := "/b" }] := by
  decide

/-! ## `serverWithLogHandle` -/

/-- C7: one invocation of the handler built from `srv` performs exactly two
effects, in this order: one `log.Printf` whose text is the client address,
host, protocol version, method and request target joined by single spaces
(and ended by the newline of the format), then one `srv.ServeHTTP` with the
same writer and request. -/
theorem serverWithLogHandle_effects {H W : Type} (srv : H) (w : W) (r : Request) :
    serverWithLogHandle srv w r
      = [ Effect.logPrintf
            (String.intercalate " " [r.RemoteAddr, r.Host, r.Proto, r.Method, r.URL] ++ "\n"),
          Effect.ServeHTTP srv w r ] := by
  rfl

/-! ## The file system chosen by `main` -/

/-- C8: the root of the file server built by `main` is the adapter
`unindexedDir` exactly when the flag `indexing` is true; when it is false the
root is the raw store, and opening any `name` through it gives the result of
the store: a handle `f` the store returns is returned, an error is
returned unchanged. -/
theorem main_serves_adapter_iff_flag {σ F : Type} (Abs : String → String)
    (Dir : String → HttpFileSystem σ F) (docroot : String) (indexing : Bool)
    (name : String) (w : World σ F) :
    ((mainFileServer Abs Dir docroot indexing).root = unindexedDir Dir (Abs docroot)
        ↔ indexing = true)
    ∧ (indexing = false →
        (mainFileServer Abs Dir docroot indexing).root = ServedFS.raw (Dir (Abs docroot))
        ∧ (∀ f w1, fsOpen (Dir (Abs docroot)) name w = (Except.ok f, w1) →
            (mainFileServer Abs Dir docroot indexing).root.Open name w = (OpenResult.ok f, w1))
        ∧ (∀ err w1, fsOpen (Dir (Abs docroot)) name w = (Except.error err, w1) →
            (mainFileServer Abs Dir docroot indexing).root.Open name w
              = (OpenResult.error err, w1))) := by
  cases indexing with
  | true => simp [mainFileServer, FileServer]
  | false =>
    refine ⟨by simp [mainFileServer, FileServer, unindexedDir], fun _ => ⟨rfl, ?_, ?_⟩⟩
    · intro f w1 h
      simp [mainFileServer, FileServer, ServedFS.Open, h]
    · intro err w1 h
      simp [mainFileServer, FileServer, ServedFS.Open, h]

/-- Witness of C8: with the flag false, the directory `/b` of the scenario
store, which has no `index.html`, is returned as a handle. -/
theorem main_serves_adapter_iff_flag_witness :
    fsOpen scenarioFS "/b" world0
        = (Except.ok { id := 0, path := "/b" },
            { store := 1, trace := [Event.opened "/b" { id := 0, path := "/b" }] })
    ∧ (mainFileServer (fun p => p) (fun _ => scenarioFS) "/srv/www" false).root.Open
          "/b" world0
        = (OpenResult.ok { id := 0, path := "/b" },
            { store := 1, trace := [Event.opened "/b" { id := 0, path := "/b" }] }) :=
  ⟨by decide,
   ((main_serves_adapter_iff_flag (fun p => p) (fun _ => scenarioFS) "/srv/www" false
      "/b" world0).2 rfl).2.1 _ _ (by decide)⟩

/-! ## The candidate index path -/

/-- Characterisation of `HasSuffix` by an explicit prefix. -/
theorem hasSuffix_iff (s suffix : String) :
    HasSuffix s suffix = true ↔ ∃ t : List Char, s.data = t ++ suffix.data := by
  unfold HasSuffix
  rw [List.isSuffixOf_iff_suffix]
  constructor
  · rintro ⟨t, ht⟩
    exact ⟨t, ht.symm⟩
  · rintro ⟨t, ht⟩
    exact ⟨t, ht.symm⟩

/-- Trimming `suffix` from `t ++ suffix` leaves `t`. -/
theorem trimSuffix_data_of_append (s suffix : String) (t : List Char)
    (h : s.data = t ++ suffix.data) : (TrimSuffix s suffix).data = t := by
  have hs : HasSuffix s suffix = true := (hasSuffix_iff s suffix).2 ⟨t, h⟩
  simp [TrimSuffix, hs, h]

/-- Trimming a suffix that is not there changes nothing. -/
theorem trimSuffix_of_not_hasSuffix (s suffix : String) (h : HasSuffix s suffix = false) :
    TrimSuffix s suffix = s := by
  simp [TrimSuffix, h]

/-- A name that does not end in two separators has no trailing separator
left after one is trimmed. -/
theorem trim_slash_not_hasSuffix (name : String) (h : HasSuffix name "//" = false) :
    HasSuffix (TrimSuffix name "/") "/" = false := by
  cases hs : HasSuffix name "/" with
  | false => rw [trimSuffix_of_not_hasSuffix name "/" hs]; exact hs
  | true =>
    obtain ⟨t, ht⟩ := (hasSuffix_iff name "/").1 hs
    rw [Bool.eq_false_iff]
    intro hcon
    obtain ⟨u, hu⟩ := (hasSuffix_iff _ "/").1 hcon
    rw [trimSuffix_data_of_append name "/" t ht] at hu
    have hdouble : HasSuffix name "//" = true := by
      refine (hasSuffix_iff name "//").2 ⟨u, ?_⟩
      rw [ht, hu]
      simp
    rw [h] at hdouble
    exact Bool.noConfusion hdouble

/-- For a name that does not end in two separators the candidate does not
end in `//index.html`. -/
theorem indexPath_not_double_slash (name : String) (h : HasSuffix name "//" = false) :
    HasSuffix (indexPath name) "//index.html" = false := by
  rw [Bool.eq_false_iff]
  intro hcon
  obtain ⟨p, hp⟩ := (hasSuffix_iff _ _).1 hcon
  have hX : ("//index.html" : String).data = ['/'] ++ ("/index.html" : String).data := by
    decide
  rw [indexPath, String.data_append, hX, ← List.append_assoc] at hp
  have hT : (TrimSuffix name "/").data = p ++ ("/" : String).data :=
    List.append_cancel_right hp
  have hslash : HasSuffix (TrimSuffix name "/") "/" = true := (hasSuffix_iff _ _).2 ⟨p, hT⟩
  rw [trim_slash_not_hasSuffix name h] at hslash
  exact Bool.noConfusion hslash

/-- The candidate of `name ++ "/"` is `name ++ "/index.html"`. -/
theorem indexPath_append_slash (name : String) :
    indexPath (name ++ "/") = name ++ "/index.html" := by
  unfold indexPath
  have htrim : TrimSuffix (name ++ "/") "/" = name := by
    apply String.ext
    exact trimSuffix_data_of_append (name ++ "/") "/" name.data (by simp)
  rw [htrim]

/-- C10 as stated fails at names that end in more than one separator:
for `/a//` the part before `/index.html` is `/a/`, the candidate
`/a//index.html` ends in `//index.html`, and `/a/` and `/a/` with a
separator appended are probed at different candidates. -/
theorem indexPath_double_slash_counterexample :
    HasSuffix (TrimSuffix "/a//" "/") "/" = true
    ∧ indexPath "/a//" = "/a//index.html"
    ∧ HasSuffix (indexPath "/a//") "//index.html" = true
    ∧ indexPath ("/a/" ++ "/") ≠ indexPath "/a/" := by
  decide

/-- C10, amended: the candidate is `name` with one trailing separator
trimmed, followed by `/index.html`.  When `name` does not end in two
separators, the part before `/index.html` does not end in a separator and the
candidate does not end in `//index.html`; when `name` does not end in a
separator, `name` and `name` with a separator appended are probed at the
same candidate.  `/a` and `/a/` probe `/a/index.html`, `/` probes
`/index.html`. -/
theorem indexPath_single_trailing_slash (name : String) :
    indexPath name = TrimSuffix name "/" ++ "/index.html"
    ∧ (HasSuffix name "//" = false →
        HasSuffix (TrimSuffix name "/") "/" = false
        ∧ HasSuffix (indexPath name) "//index.html" = false)
    ∧ (HasSuffix name "/" = false → indexPath (name ++ "/") = indexPath name)
    ∧ indexPath "/a" = "/a/index.html"
    ∧ indexPath "/a/" = "/a/index.html"
    ∧ indexPath "/" = "/index.html" := by
  refine ⟨rfl, fun h => ⟨trim_slash_not_hasSuffix name h, indexPath_not_double_slash name h⟩,
    fun h => ?_, by decide, by decide, by decide⟩
  rw [indexPath_append_slash, indexPath, trimSuffix_of_not_hasSuffix name "/" h]

/-- Witness of the amended C10 at `/srv`: it ends in no separator, and
`/srv` and `/srv/` are probed at the same candidate, which does not end in
`//index.html`. -/
theorem indexPath_single_trailing_slash_witness :
    HasSuffix "/srv" "//" = false
    ∧ HasSuffix "/srv" "/" = false
    ∧ HasSuffix (indexPath "/srv") "//index.html" = false
    ∧ indexPath ("/srv" ++ "/") = indexPath "/srv" :=
  ⟨by decide, by decide,
   ((indexPath_single_trailing_slash "/srv").2.1 (by decide)).2,
   (indexPath_single_trailing_slash "/srv").2.2.1 (by decide)⟩

end Staticy
